import Mathlib

/-!
Pixel drawing app: HSV colour model and raster canvas.

A shallow embedding of `src/main.cpp` (classes `HSV` and `Canvas`) together with
the properties of the colour conversion, the bounded step operations, the pixel
store and the resize commit.

Machine integers are natural numbers; where the C++ code narrows a value to
`uint8_t` or `uint16_t` the embedding applies the corresponding `%` explicitly.
A `float` is the rational number it denotes, and every `float` operation is the
exact operation followed by rounding to binary32 (`rn32`).
-/

set_option autoImplicit false
set_option maxRecDepth 20000

/-! ## Colours -/

/-- An `sf::Color`: four 8-bit channels. -/
structure sf.Color where
  r : Nat
  g : Nat
  b : Nat
  a : Nat
  deriving DecidableEq, Repr

/-- The three-argument constructor `sf::Color(r, g, b)`: alpha defaults to 255. -/
def sf.Color.rgb (r g b : Nat) : sf.Color := ⟨r, g, b, 255⟩

/-! ## HSV colour model -/

/-- Class `HSV`: `h` is a `uint16_t`, `s` and `v` are `uint8_t`. -/
structure HSV where
  h : Nat
  s : Nat
  v : Nat
  deriving DecidableEq, Repr

namespace HSV

/-- Method `void DecreaseH() {if (h > 0) h -= 1;}` -/
def DecreaseH (c : HSV) : HSV := if c.h > 0 then { c with h := (c.h - 1) % 65536 } else c

/-- Method `void DecreaseS() {if (s > 0) s -= 1;}` -/
def DecreaseS (c : HSV) : HSV := if c.s > 0 then { c with s := (c.s - 1) % 256 } else c

/-- Method `void DecreaseV() {if (v > 0) v -= 1;}` -/
def DecreaseV (c : HSV) : HSV := if c.v > 0 then { c with v := (c.v - 1) % 256 } else c

/-- Method `void IncreaseH() {if (h < 360) h += 1;}` -/
def IncreaseH (c : HSV) : HSV := if c.h < 360 then { c with h := (c.h + 1) % 65536 } else c

/-- Method `void IncreaseS() {if (s < 100) s += 1;}` -/
def IncreaseS (c : HSV) : HSV := if c.s < 100 then { c with s := (c.s + 1) % 256 } else c

/-- Method `void IncreaseV() {if (v < 100) v += 1;}` -/
def IncreaseV (c : HSV) : HSV := if c.v < 100 then { c with v := (c.v + 1) % 256 } else c

end HSV

/-! ## Binary32 arithmetic -/

/-- Round to the nearest integer, ties to the even one. -/
def roundEven (y : ℚ) : ℤ :=
  if y - (Rat.floor y : ℚ) < 1 / 2 then Rat.floor y
  else if 1 / 2 < y - (Rat.floor y : ℚ) then Rat.floor y + 1
  else if Rat.floor y % 2 = 0 then Rat.floor y else Rat.floor y + 1

/-- The exponent of the unit in the last place of a binary32 `float` at `x`:
`⌊log₂ |x|⌋ - 23` for a normal value, `-149` in the subnormal range. -/
def ulpExp32 (x : ℚ) : ℤ := max (Int.log 2 |x|) (-126) - 23

/-- The value of the `float` nearest to the exact result `x` of an operation
(IEEE 754 binary32, round to nearest, ties to even), every `float` operation
being rounded to `float` on its own. Overflow is not modelled: every value that
`HSV::Color` computes is below 512 in magnitude. -/
def rn32 (x : ℚ) : ℚ :=
  if x = 0 then 0 else (roundEven (x / 2 ^ ulpExp32 x) : ℚ) * 2 ^ ulpExp32 x

/-- The function `std::round`: nearest integer, halves away from zero. -/
def stdRound (q : ℚ) : ℤ := if 0 ≤ q then Rat.floor (q + 1 / 2) else - Rat.floor (-q + 1 / 2)

/-- Conversion of an integral value to `uint8_t`. -/
def toU8 (z : ℤ) : Nat := (z % 256).toNat

namespace HSV

/-- The value `float H = (h % 360) / 60.f` of `HSV::Color`; the integer
`h % 360` is a `float` exactly. -/
def hue (c : HSV) : ℚ := rn32 (((c.h % 360 : Nat) : ℚ) / 60)

/-- The sector index `uint8_t i = std::floor(H)` of `HSV::Color`. -/
def sector (c : HSV) : Nat := toU8 (Rat.floor (hue c))

/-- The three scaled channel values of `HSV::Color` before they are narrowed to
`uint8_t`: `std::round(V * 255)`, `std::round(M * 255)`, `std::round(X * 255)`,
with `S = (s % 101) / 100.f`, `V = (v % 101) / 100.f`, `D = H - i`,
`M = V * (1 - S)` and `X = V + (M - V)*D` for odd `i`, `X = M + (V - M)*D` for
even `i`, each operation rounded to `float`. -/
def scaled (c : HSV) : ℤ × ℤ × ℤ :=
  let H : ℚ := hue c
  let S : ℚ := rn32 (((c.s % 101 : Nat) : ℚ) / 100)
  let V : ℚ := rn32 (((c.v % 101 : Nat) : ℚ) / 100)
  let i : Nat := sector c
  let D : ℚ := rn32 (H - (i : ℚ))
  let M : ℚ := rn32 (V * rn32 (1 - S))
  let X : ℚ :=
    if i % 2 ≠ 0 then rn32 (V + rn32 (rn32 (M - V) * D))
    else rn32 (M + rn32 (rn32 (V - M) * D))
  (stdRound (rn32 (V * 255)), stdRound (rn32 (M * 255)), stdRound (rn32 (X * 255)))

/-- Method `sf::Color Color()`: the scaled values narrowed to `uint8_t` and permuted by
the sector switch. -/
def Color (c : HSV) : sf.Color :=
  let v : Nat := toU8 (scaled c).1
  let m : Nat := toU8 (scaled c).2.1
  let x : Nat := toU8 (scaled c).2.2
  match sector c with
  | 0 => sf.Color.rgb v x m
  | 1 => sf.Color.rgb x v m
  | 2 => sf.Color.rgb m v x
  | 3 => sf.Color.rgb m x v
  | 4 => sf.Color.rgb x m v
  | 5 => sf.Color.rgb v m x
  | _ => sf.Color.rgb 0 0 0

end HSV

/-! ## Canonical HSV to RGB conversion (reference definition) -/

/-- Class `Canvas`. The sizes `w`, `h`, `w_new`, `h_new` are `uint8_t`; `pixels`
is the `std::vector<uint8_t>`, its length being `pixels.size()`. The field
`syncs` counts the calls of `UpdateTexture`, the texture-resync signal. The
members `scale`, `texture`, `sprite` and `bg` belong to rendering and are not
modelled. -/
structure Canvas where
  w : Nat
  h : Nat
  w_new : Nat
  h_new : Nat
  pixels : List Nat
  syncs : Nat
  deriving DecidableEq, Repr

/-- The constructor `Canvas(uint8_t w, uint8_t h, float scale)`:
`w(w), h(h), w_new(w), h_new(h), pixels(w * h * 4, 0)`. -/
def Canvas.create (w h : Nat) : Canvas :=
  { w := w, h := h, w_new := w, h_new := h, pixels := List.replicate (w * h * 4) 0, syncs := 0 }

/-- Method `void Clear()`: every element of `pixels` becomes 0. -/
def Canvas.Clear (c : Canvas) : Canvas :=
  { c with pixels := c.pixels.map fun _ => 0 }

/-- Method `void UpdateTexture()`: `texture.update(pixels.data())`, observed as one more
resync. -/
def Canvas.UpdateTexture (c : Canvas) : Canvas :=
  { c with syncs := c.syncs + 1 }

/-- The call `pixels.resize(n)`: the first `n` elements are kept and new elements are 0. -/
def vectorResize (p : List Nat) (n : Nat) : List Nat :=
  p.take n ++ List.replicate (n - p.length) 0

/-- The copy loop of `UpdateSize`, which fills `uint8_t array[h][w][4]` with
`array[y][x][k] = pixels[(x + y*w) * 4 + k]` for `y < h`, `x < w`. The operands
are below 256, so the `int` arithmetic of the index is exact. -/
def Canvas.copyArray (c : Canvas) : List (List (List Nat)) :=
  (List.range c.h).map fun y =>
    (List.range c.w).map fun x =>
      let i := (x + y * c.w) * 4
      [c.pixels.getD i 0, c.pixels.getD (i + 1) 0, c.pixels.getD (i + 2) 0,
        c.pixels.getD (i + 3) 0]

/-- The element `array[y][x][k]`. -/
def arrayAt (array : List (List (List Nat))) (y x k : Nat) : Nat :=
  ((array.getD y []).getD x []).getD k 0

/-- The paste loop of `UpdateSize` as the sequence of stores
`pixels[index] = value` it performs, in program order: for `y < h`, `x < w`
(the committed sizes) and `i_new = (x + y*w_new) * 4`, the four stores
`pixels[i_new + k] = array[y][x][k]`. -/
def Canvas.pasteStores (c : Canvas) (array : List (List (List Nat))) : List (Nat × Nat) :=
  (List.range c.h).flatMap fun y =>
    (List.range c.w).flatMap fun x =>
      let i_new := (x + y * c.w_new) * 4
      [(i_new, arrayAt array y x 0), (i_new + 1, arrayAt array y x 1),
        (i_new + 2, arrayAt array y x 2), (i_new + 3, arrayAt array y x 3)]

/-- Performing a sequence of stores `pixels[index] = value`, in order.
`std::vector::operator[]` requires `index < size()`: a store at an index that is
not below the size of the vector is undefined behaviour, and the sequence then
has no result. -/
def storeAll (p : List Nat) : List (Nat × Nat) → Option (List Nat)
  | [] => some p
  | s :: rest => if s.1 < p.length then storeAll (p.set s.1 s.2) rest else none

/-- Method `void UpdateSize()`: copy to `array`, `pixels.resize(w_new * h_new * 4)`,
`Clear()`, paste, `w = w_new; h = h_new;`, `UpdateTexture()`. There is no result
when the paste loop stores outside the vector. -/
def Canvas.UpdateSize (c : Canvas) : Option Canvas :=
  let array := c.copyArray
  let c1 := { c with pixels := vectorResize c.pixels (c.w_new * c.h_new * 4) }
  let c2 := c1.Clear
  match storeAll c2.pixels (c2.pasteStores array) with
  | none => none
  | some p =>
    let c3 := { c2 with pixels := p }
    let c4 := { c3 with w := c3.w_new, h := c3.h_new }
    some c4.UpdateTexture

/-- Method `void DecreaseW() { if (w_new > 1) {w_new -= 1; UpdateSize();} }` -/
def Canvas.DecreaseW (c : Canvas) : Option Canvas :=
  if c.w_new > 1 then Canvas.UpdateSize { c with w_new := (c.w_new - 1) % 256 } else some c

/-- Method `void DecreaseH() { if (h_new > 1) {h_new -= 1; UpdateSize();} }` -/
def Canvas.DecreaseH (c : Canvas) : Option Canvas :=
  if c.h_new > 1 then Canvas.UpdateSize { c with h_new := (c.h_new - 1) % 256 } else some c

/-- Method `void IncreaseW() { if (w_new < 255) {w_new += 1; UpdateSize();} }` -/
def Canvas.IncreaseW (c : Canvas) : Option Canvas :=
  if c.w_new < 255 then Canvas.UpdateSize { c with w_new := (c.w_new + 1) % 256 } else some c

/-- Method `void IncreaseH() { if (h_new < 255) {h_new += 1; UpdateSize();} }` -/
def Canvas.IncreaseH (c : Canvas) : Option Canvas :=
  if c.h_new < 255 then Canvas.UpdateSize { c with h_new := (c.h_new + 1) % 256 } else some c

/-- Method `void SetPixel(uint8_t x, uint8_t y, sf::Color const& color)`. -/
def Canvas.SetPixel (c : Canvas) (x y : Nat) (color : sf.Color) : Canvas :=
  if x ≥ c.w ∨ y ≥ c.h then c
  else
    let i := (x + y * c.w) * 4
    if c.pixels.getD i 0 = color.r ∧ c.pixels.getD (i + 1) 0 = color.g ∧
        c.pixels.getD (i + 2) 0 = color.b ∧ c.pixels.getD (i + 3) 0 = color.a then c
    else
      let p1 := c.pixels.set i color.r
      let p2 := p1.set (i + 1) color.g
      let p3 := p2.set (i + 2) color.b
      let p4 := p3.set (i + 3) color.a
      Canvas.UpdateTexture { c with pixels := p4 }

/-- The operations on a canvas that a key or mouse event can trigger. -/
inductive Canvas.Op where
  | SetPixel (x y : Nat) (color : sf.Color)
  | Clear
  | IncreaseW
  | DecreaseW
  | IncreaseH
  | DecreaseH
  deriving DecidableEq, Repr

/-- One operation applied to a canvas. -/
def Canvas.step (c : Canvas) : Canvas.Op → Option Canvas
  | .SetPixel x y color => some (c.SetPixel x y color)
  | .Clear => some c.Clear
  | .IncreaseW => c.IncreaseW
  | .DecreaseW => c.DecreaseW
  | .IncreaseH => c.IncreaseH
  | .DecreaseH => c.DecreaseH

/-- A finite sequence of operations applied from left to right; there is no
result as soon as one operation has none. -/
def Canvas.run (c : Canvas) : List Canvas.Op → Option Canvas
  | [] => some c
  | op :: rest =>
    match c.step op with
    | none => none
    | some c1 => c1.run rest

/-- A 3×3 canvas whose byte at index `j` is `j + 1`. -/
def pattern3x3 : Canvas :=
  { w := 3, h := 3, w_new := 3, h_new := 3, pixels := (List.range 36).map Nat.succ, syncs := 0 }

/-- A 2×2 canvas whose byte at index `j` is `j + 1`. -/
def pattern2x2 : Canvas :=
  { w := 2, h := 2, w_new := 2, h_new := 2, pixels := (List.range 16).map Nat.succ, syncs := 0 }

/-! ## Properties of binary32 rounding -/

theorem toU8_le (z : ℤ) : (0 : ℤ) ≤ ((toU8 z : ℕ) : ℤ) ∧ ((toU8 z : ℕ) : ℤ) ≤ 255 := by
  unfold toU8
  omega

theorem pixel_index_lt (w h x y k : Nat) (hx : x < w) (hy : y < h) (hk : k < 4) :
    (x + y * w) * 4 + k < w * h * 4 := by
  have h1 : (y + 1) * w ≤ h * w := Nat.mul_le_mul_right _ hy
  rw [Nat.add_mul, Nat.mul_comm h] at h1
  omega

theorem getD_eq_iff (p : List Nat) (i v : Nat) (hi : i < p.length) :
    p.getD i 0 = v ↔ p[i]? = some v := by
  rw [List.getD_eq_getElem?_getD, List.getElem?_eq_getElem hi]
  simp

/-- The four stores of one pixel. -/
theorem set4_getElem? (p : List Nat) (i v0 v1 v2 v3 j : Nat) :
    ((((p.set i v0).set (i + 1) v1).set (i + 2) v2).set (i + 3) v3)[j]? =
      if j < p.length ∧ i ≤ j ∧ j < i + 4 then
        some (if j = i then v0 else if j = i + 1 then v1 else if j = i + 2 then v2 else v3)
      else p[j]? := by
  simp only [List.getElem?_set, List.length_set]
  by_cases hj : j < p.length
  · split_ifs <;> first | rfl | omega
  · have hnone : p[j]? = none := List.getElem?_eq_none (by omega)
    split_ifs <;> first | omega | rfl | simp [hnone]

theorem set4_length (p : List Nat) (i v0 v1 v2 v3 : Nat) :
    ((((p.set i v0).set (i + 1) v1).set (i + 2) v2).set (i + 3) v3).length = p.length := by
  simp only [List.length_set]

theorem Canvas.SetPixel_out (c : Canvas) (x y : Nat) (color : sf.Color)
    (h : x ≥ c.w ∨ y ≥ c.h) : c.SetPixel x y color = c := by
  unfold Canvas.SetPixel
  rw [if_pos h]

/-- The state after `SetPixel` at an in-bounds coordinate. -/
theorem Canvas.SetPixel_in (c : Canvas) (x y : Nat) (color : sf.Color)
    (hlen : c.pixels.length = c.w * c.h * 4) (hx : x < c.w) (hy : y < c.h) :
    c.SetPixel x y color =
      if c.pixels[(x + y * c.w) * 4]? = some color.r ∧
          c.pixels[(x + y * c.w) * 4 + 1]? = some color.g ∧
          c.pixels[(x + y * c.w) * 4 + 2]? = some color.b ∧
          c.pixels[(x + y * c.w) * 4 + 3]? = some color.a then c
      else
        { c with
          pixels := (((c.pixels.set ((x + y * c.w) * 4) color.r).set
            ((x + y * c.w) * 4 + 1) color.g).set ((x + y * c.w) * 4 + 2) color.b).set
            ((x + y * c.w) * 4 + 3) color.a
          syncs := c.syncs + 1 } := by
  have h0 := pixel_index_lt c.w c.h x y 0 hx hy (by omega)
  have h3 := pixel_index_lt c.w c.h x y 3 hx hy (by omega)
  unfold Canvas.SetPixel
  rw [if_neg (by omega)]
  simp only [getD_eq_iff c.pixels ((x + y * c.w) * 4) _ (by omega),
    getD_eq_iff c.pixels ((x + y * c.w) * 4 + 1) _ (by omega),
    getD_eq_iff c.pixels ((x + y * c.w) * 4 + 2) _ (by omega),
    getD_eq_iff c.pixels ((x + y * c.w) * 4 + 3) _ (by omega)]
  rfl

/-- Once the colour is stored at an in-bounds coordinate, `SetPixel` with the
same arguments finds the bytes equal and returns. -/
theorem Canvas.SetPixel_stored (c : Canvas) (x y : Nat) (color : sf.Color)
    (hlen : c.pixels.length = c.w * c.h * 4) (hx : x < c.w) (hy : y < c.h) :
    Canvas.SetPixel
        { c with
          pixels := (((c.pixels.set ((x + y * c.w) * 4) color.r).set
            ((x + y * c.w) * 4 + 1) color.g).set ((x + y * c.w) * 4 + 2) color.b).set
            ((x + y * c.w) * 4 + 3) color.a
          syncs := c.syncs + 1 } x y color =
      { c with
        pixels := (((c.pixels.set ((x + y * c.w) * 4) color.r).set
          ((x + y * c.w) * 4 + 1) color.g).set ((x + y * c.w) * 4 + 2) color.b).set
          ((x + y * c.w) * 4 + 3) color.a
        syncs := c.syncs + 1 } := by
  have h3 := pixel_index_lt c.w c.h x y 3 hx hy (by omega)
  have hl : ((((c.pixels.set ((x + y * c.w) * 4) color.r).set
      ((x + y * c.w) * 4 + 1) color.g).set ((x + y * c.w) * 4 + 2) color.b).set
      ((x + y * c.w) * 4 + 3) color.a).length = c.w * c.h * 4 := by
    rw [set4_length]; exact hlen
  rw [Canvas.SetPixel_in (Canvas.mk c.w c.h c.w_new c.h_new
    ((((c.pixels.set ((x + y * c.w) * 4) color.r).set
      ((x + y * c.w) * 4 + 1) color.g).set ((x + y * c.w) * 4 + 2) color.b).set
      ((x + y * c.w) * 4 + 3) color.a) (c.syncs + 1))
    x y color hl hx hy]
  apply if_pos
  dsimp only
  refine ⟨?_, ?_, ?_, ?_⟩
  · rw [set4_getElem?, if_pos (by omega), if_pos rfl]
  · rw [set4_getElem?, if_pos (by omega), if_neg (by omega), if_pos rfl]
  · rw [set4_getElem?, if_pos (by omega), if_neg (by omega), if_neg (by omega),
      if_pos rfl]
  · rw [set4_getElem?, if_pos (by omega), if_neg (by omega), if_neg (by omega),
      if_neg (by omega)]

/-! ## The resize commit -/

theorem vectorResize_length (p : List Nat) (n : Nat) : (vectorResize p n).length = n := by
  unfold vectorResize
  simp only [List.length_append, List.length_take, List.length_replicate]
  omega

/-- A sequence of stores that contains a store at an index not below the size
has no result. -/
theorem storeAll_past_end (stores : List (Nat × Nat)) (p : List Nat)
    (h : ∃ s ∈ stores, p.length ≤ s.1) : storeAll p stores = none := by
  induction stores generalizing p with
  | nil =>
    obtain ⟨s, hs, -⟩ := h
    exact absurd hs (List.not_mem_nil s)
  | cons s rest ih =>
    unfold storeAll
    by_cases hs : s.1 < p.length
    · rw [if_pos hs]
      apply ih
      obtain ⟨t, ht, hlen⟩ := h
      rcases List.mem_cons.mp ht with e | e
      · subst e; omega
      · exact ⟨t, e, by rw [List.length_set]; exact hlen⟩
    · rw [if_neg hs]

/-- Whenever the pending size is smaller than the committed one in width or in
height, the paste loop performs a store at an index that is not below the size
the vector has at that moment, `w_new * h_new * 4`. -/
theorem Canvas.pasteStores_past_end (c : Canvas) (array : List (List (List Nat)))
    (hw : 0 < c.w) (hh : 0 < c.h) (hhle : c.h_new ≤ c.h)
    (hs : c.w_new < c.w ∨ c.h_new < c.h) :
    ∃ s ∈ c.pasteStores array, c.w_new * c.h_new * 4 ≤ s.1 := by
  refine ⟨(((c.w - 1) + (c.h - 1) * c.w_new) * 4, arrayAt array (c.h - 1) (c.w - 1) 0), ?_, ?_⟩
  · unfold Canvas.pasteStores
    rw [List.mem_flatMap]
    refine ⟨c.h - 1, List.mem_range.mpr (by omega), ?_⟩
    rw [List.mem_flatMap]
    exact ⟨c.w - 1, List.mem_range.mpr (by omega), List.mem_cons_self _ _⟩
  · show c.w_new * c.h_new * 4 ≤ ((c.w - 1) + (c.h - 1) * c.w_new) * 4
    rcases hs with h1 | h1
    · have h2 : c.h_new * c.w_new ≤ c.h * c.w_new := Nat.mul_le_mul_right _ hhle
      have h3 : (c.h - 1 + 1) * c.w_new = c.h * c.w_new := by
        rw [Nat.sub_add_cancel hh]
      rw [Nat.add_mul, Nat.one_mul] at h3
      rw [Nat.mul_comm c.w_new]
      omega
    · have h2 : c.h_new * c.w_new ≤ (c.h - 1) * c.w_new := Nat.mul_le_mul_right _ (by omega)
      rw [Nat.mul_comm c.w_new]
      omega

/-- A resize commit whose pending size is smaller than the committed one in
width or in height has no result. -/
theorem Canvas.UpdateSize_shrink (c : Canvas) (hw : 0 < c.w) (hh : 0 < c.h)
    (hhle : c.h_new ≤ c.h) (hs : c.w_new < c.w ∨ c.h_new < c.h) : c.UpdateSize = none := by
  obtain ⟨s, hmem, hle⟩ := Canvas.pasteStores_past_end
    (Canvas.Clear { c with pixels := vectorResize c.pixels (c.w_new * c.h_new * 4) })
    c.copyArray hw hh hhle hs
  have hnone : storeAll
      (Canvas.Clear { c with pixels := vectorResize c.pixels (c.w_new * c.h_new * 4) }).pixels
      ((Canvas.Clear { c with pixels := vectorResize c.pixels (c.w_new * c.h_new * 4) }).pasteStores
        c.copyArray) = none := by
    apply storeAll_past_end
    refine ⟨s, hmem, ?_⟩
    show (List.map _ (vectorResize _ _)).length ≤ s.1
    rw [List.length_map, vectorResize_length]
    exact hle
  unfold Canvas.UpdateSize
  simp only [hnone]

/-- Every `DecreaseW` that is not refused has no result. -/
theorem Canvas.DecreaseW_shrink (c : Canvas) (hwn : c.w_new = c.w) (hhn : c.h_new = c.h)
    (hw1 : 1 < c.w) (hw2 : c.w ≤ 255) (hh : 1 ≤ c.h) : c.DecreaseW = none := by
  unfold Canvas.DecreaseW
  rw [if_pos (by omega)]
  apply Canvas.UpdateSize_shrink
  · show 0 < c.w
    omega
  · show 0 < c.h
    omega
  · show c.h_new ≤ c.h
    omega
  · left
    show (c.w_new - 1) % 256 < c.w
    omega

/-- Every `DecreaseH` that is not refused has no result. -/
theorem Canvas.DecreaseH_shrink (c : Canvas) (hhn : c.h_new = c.h)
    (hh1 : 1 < c.h) (hh2 : c.h ≤ 255) (hw : 1 ≤ c.w) : c.DecreaseH = none := by
  unfold Canvas.DecreaseH
  rw [if_pos (by omega)]
  apply Canvas.UpdateSize_shrink
  · show 0 < c.w
    omega
  · show 0 < c.h
    omega
  · show (c.h_new - 1) % 256 ≤ c.h
    omega
  · right
    show (c.h_new - 1) % 256 < c.h
    omega

/-! ## Verified properties -/

/-- C5: `SetPixel` at a coordinate with `x ≥ w` or `y ≥ h` returns the canvas
unchanged: same buffer, same sizes, and no texture resync is counted. -/
theorem Canvas.SetPixel_out_of_bounds_noop (c : Canvas) (x y : Nat) (color : sf.Color)
    (h : x ≥ c.w ∨ y ≥ c.h) :
    c.SetPixel x y color = c ∧ (c.SetPixel x y color).pixels = c.pixels ∧
      (c.SetPixel x y color).w = c.w ∧ (c.SetPixel x y color).h = c.h ∧
      (c.SetPixel x y color).syncs = c.syncs := by
  rw [Canvas.SetPixel_out c x y color h]
  exact ⟨rfl, rfl, rfl, rfl, rfl⟩

theorem Canvas.SetPixel_out_of_bounds_noop_witness :
    (3 ≥ pattern3x3.w ∨ 0 ≥ pattern3x3.h) ∧
      (pattern3x3.SetPixel 3 0 ⟨9, 9, 9, 9⟩ = pattern3x3 ∧
        (pattern3x3.SetPixel 3 0 ⟨9, 9, 9, 9⟩).pixels = pattern3x3.pixels ∧
        (pattern3x3.SetPixel 3 0 ⟨9, 9, 9, 9⟩).w = pattern3x3.w ∧
        (pattern3x3.SetPixel 3 0 ⟨9, 9, 9, 9⟩).h = pattern3x3.h ∧
        (pattern3x3.SetPixel 3 0 ⟨9, 9, 9, 9⟩).syncs = pattern3x3.syncs) :=
  ⟨by decide, Canvas.SetPixel_out_of_bounds_noop pattern3x3 3 0 ⟨9, 9, 9, 9⟩ (by decide)⟩

/-- C6: on a canvas whose buffer has length `w*h*4`, `SetPixel` at `x < w`,
`y < h` leaves the four bytes at offsets `4*(x+y*w) .. 4*(x+y*w)+3` equal to the
colour, every other byte, the length and the sizes unchanged, and counts one
texture resync exactly when the previous four bytes differed from the colour. -/
theorem Canvas.SetPixel_in_bounds_effect (c : Canvas) (x y : Nat) (color : sf.Color)
    (hlen : c.pixels.length = c.w * c.h * 4) (hx : x < c.w) (hy : y < c.h) :
    (c.SetPixel x y color).pixels[4 * (x + y * c.w)]? = some color.r ∧
      (c.SetPixel x y color).pixels[4 * (x + y * c.w) + 1]? = some color.g ∧
      (c.SetPixel x y color).pixels[4 * (x + y * c.w) + 2]? = some color.b ∧
      (c.SetPixel x y color).pixels[4 * (x + y * c.w) + 3]? = some color.a ∧
      (∀ j, j < 4 * (x + y * c.w) ∨ 4 * (x + y * c.w) + 4 ≤ j →
        (c.SetPixel x y color).pixels[j]? = c.pixels[j]?) ∧
      (c.SetPixel x y color).pixels.length = c.pixels.length ∧
      (c.SetPixel x y color).w = c.w ∧ (c.SetPixel x y color).h = c.h ∧
      (c.SetPixel x y color).w_new = c.w_new ∧ (c.SetPixel x y color).h_new = c.h_new ∧
      (c.SetPixel x y color).syncs =
        if c.pixels[4 * (x + y * c.w)]? = some color.r ∧
            c.pixels[4 * (x + y * c.w) + 1]? = some color.g ∧
            c.pixels[4 * (x + y * c.w) + 2]? = some color.b ∧
            c.pixels[4 * (x + y * c.w) + 3]? = some color.a then c.syncs
        else c.syncs + 1 := by
  have h3 := pixel_index_lt c.w c.h x y 3 hx hy (by omega)
  rw [Canvas.SetPixel_in c x y color hlen hx hy, Nat.mul_comm 4]
  split
  · rename_i heq
    obtain ⟨e0, e1, e2, e3⟩ := heq
    exact ⟨e0, e1, e2, e3, fun _ _ => rfl, rfl, rfl, rfl, rfl, rfl, rfl⟩
  · refine ⟨?_, ?_, ?_, ?_, ?_, ?_, rfl, rfl, rfl, rfl, rfl⟩
    · show (List.set _ _ _)[_]? = _
      rw [set4_getElem?, if_pos (by omega), if_pos rfl]
    · show (List.set _ _ _)[_]? = _
      rw [set4_getElem?, if_pos (by omega), if_neg (by omega), if_pos rfl]
    · show (List.set _ _ _)[_]? = _
      rw [set4_getElem?, if_pos (by omega), if_neg (by omega), if_neg (by omega), if_pos rfl]
    · show (List.set _ _ _)[_]? = _
      rw [set4_getElem?, if_pos (by omega), if_neg (by omega), if_neg (by omega),
        if_neg (by omega)]
    · intro j hj
      show (List.set _ _ _)[_]? = _
      rw [set4_getElem?, if_neg (by omega)]
    · show (List.set _ _ _).length = _
      rw [set4_length]

theorem Canvas.SetPixel_in_bounds_effect_witness :
    (pattern3x3.pixels.length = pattern3x3.w * pattern3x3.h * 4 ∧ 1 < pattern3x3.w ∧
        2 < pattern3x3.h) ∧
      (pattern3x3.SetPixel 1 2 ⟨9, 8, 7, 6⟩).pixels[4 * (1 + 2 * pattern3x3.w)]? = some 9 ∧
      (pattern3x3.SetPixel 1 2 ⟨9, 8, 7, 6⟩).pixels.length = pattern3x3.pixels.length ∧
      (pattern3x3.SetPixel 1 2 ⟨9, 8, 7, 6⟩).w = pattern3x3.w :=
  have h := Canvas.SetPixel_in_bounds_effect pattern3x3 1 2 ⟨9, 8, 7, 6⟩ (by decide)
    (by decide) (by decide)
  ⟨by decide, h.1, h.2.2.2.2.2.1, h.2.2.2.2.2.2.1⟩

/-- C7: on a canvas whose buffer has length `w*h*4`, `SetPixel` with the same
coordinate and colour twice in a row gives the state of a single call; the state
carries the resync count, so the second call counts no resync. -/
theorem Canvas.SetPixel_idempotent (c : Canvas) (x y : Nat) (color : sf.Color)
    (hlen : c.pixels.length = c.w * c.h * 4) :
    (c.SetPixel x y color).SetPixel x y color = c.SetPixel x y color ∧
      ((c.SetPixel x y color).SetPixel x y color).syncs = (c.SetPixel x y color).syncs := by
  have main : (c.SetPixel x y color).SetPixel x y color = c.SetPixel x y color := by
    by_cases hb : x ≥ c.w ∨ y ≥ c.h
    · rw [Canvas.SetPixel_out c x y color hb, Canvas.SetPixel_out c x y color hb]
    · have hx : x < c.w := by omega
      have hy : y < c.h := by omega
      have h3 := pixel_index_lt c.w c.h x y 3 hx hy (by omega)
      rw [Canvas.SetPixel_in c x y color hlen hx hy]
      split
      · rw [Canvas.SetPixel_in c x y color hlen hx hy]
        rename_i heq
        rw [if_pos heq]
      · exact Canvas.SetPixel_stored c x y color hlen hx hy
  exact ⟨main, by rw [main]⟩

theorem Canvas.SetPixel_idempotent_witness :
    pattern3x3.pixels.length = pattern3x3.w * pattern3x3.h * 4 ∧
      ((pattern3x3.SetPixel 1 2 ⟨9, 8, 7, 6⟩).SetPixel 1 2 ⟨9, 8, 7, 6⟩
          = pattern3x3.SetPixel 1 2 ⟨9, 8, 7, 6⟩ ∧
        ((pattern3x3.SetPixel 1 2 ⟨9, 8, 7, 6⟩).SetPixel 1 2 ⟨9, 8, 7, 6⟩).syncs
          = (pattern3x3.SetPixel 1 2 ⟨9, 8, 7, 6⟩).syncs) :=
  ⟨by decide, Canvas.SetPixel_idempotent pattern3x3 1 2 ⟨9, 8, 7, 6⟩ (by decide)⟩

/-- C8: with the pending size equal to the committed size, `IncreaseW` at
`w = 255`, `DecreaseW` at `w = 1`, `IncreaseH` at `h = 255` and `DecreaseH` at
`h = 1` return the canvas unchanged; in particular no resync is counted, so
`UpdateSize` did not run. -/
theorem Canvas.size_step_refused (c : Canvas) (hwn : c.w_new = c.w) (hhn : c.h_new = c.h) :
    (c.w = 255 → c.IncreaseW = some c) ∧ (c.w = 1 → c.DecreaseW = some c) ∧
      (c.h = 255 → c.IncreaseH = some c) ∧ (c.h = 1 → c.DecreaseH = some c) := by
  refine ⟨fun h => ?_, fun h => ?_, fun h => ?_, fun h => ?_⟩
  · unfold Canvas.IncreaseW
    rw [if_neg (by omega)]
  · unfold Canvas.DecreaseW
    rw [if_neg (by omega)]
  · unfold Canvas.IncreaseH
    rw [if_neg (by omega)]
  · unfold Canvas.DecreaseH
    rw [if_neg (by omega)]

theorem Canvas.size_step_refused_witness :
    (((Canvas.create 255 1).w_new = (Canvas.create 255 1).w ∧
          (Canvas.create 255 1).h_new = (Canvas.create 255 1).h) ∧
        ((Canvas.create 1 255).w_new = (Canvas.create 1 255).w ∧
          (Canvas.create 1 255).h_new = (Canvas.create 1 255).h)) ∧
      (Canvas.create 255 1).IncreaseW = some (Canvas.create 255 1) ∧
      (Canvas.create 255 1).DecreaseH = some (Canvas.create 255 1) ∧
      (Canvas.create 1 255).DecreaseW = some (Canvas.create 1 255) ∧
      (Canvas.create 1 255).IncreaseH = some (Canvas.create 1 255) :=
  have h1 := Canvas.size_step_refused (Canvas.create 255 1) rfl rfl
  have h2 := Canvas.size_step_refused (Canvas.create 1 255) rfl rfl
  ⟨⟨⟨rfl, rfl⟩, ⟨rfl, rfl⟩⟩, h1.1 rfl, h1.2.2.2 rfl, h2.2.1 rfl, h2.2.2.1 rfl⟩

/-- C1 (code evaluated at the failing input): on the 2×2 pattern canvas
`DecreaseW` and `DecreaseH` have no result, because the paste loop of
`UpdateSize` stores outside the shrunk vector, whereas `IncreaseW` yields the
3×2 canvas with the four pixels kept and the new column zero. -/
theorem Canvas.shrink_step_no_result :
    pattern2x2.DecreaseW = none ∧ pattern2x2.DecreaseH = none ∧
      pattern2x2.IncreaseW =
        some { w := 3, h := 2, w_new := 3, h_new := 2, syncs := 1,
               pixels := [1, 2, 3, 4, 5, 6, 7, 8, 0, 0, 0, 0,
                          9, 10, 11, 12, 13, 14, 15, 16, 0, 0, 0, 0] } := by
  decide

/-- C2 (code evaluated at the failing input): `DecreaseW` on a 2×2 canvas runs
`UpdateSize` with `w = 2`, `w_new = 1`. After `pixels.resize` and `Clear` the
vector has 8 elements, and the paste loop, which runs over `x < 2`, `y < 2`,
stores at the indices `0..7`, `4..7` again and then `8..11`: the coordinates
`(1,0)` and `(1,1)` are outside the overlap, and the four stores of `(1,1)` are
not below the size. `DecreaseH` on the same canvas likewise stores at `8..15`
into a vector of 8 elements. -/
theorem Canvas.DecreaseW_paste_past_end :
    (pattern2x2.DecreaseW = Canvas.UpdateSize { pattern2x2 with w_new := 1 } ∧
        (Canvas.Clear { pattern2x2 with
          w_new := 1, pixels := vectorResize pattern2x2.pixels (1 * 2 * 4) }).pixels.length = 8 ∧
        ((Canvas.Clear { pattern2x2 with
          w_new := 1, pixels := vectorResize pattern2x2.pixels (1 * 2 * 4) }).pasteStores
          (Canvas.copyArray { pattern2x2 with w_new := 1 })).map Prod.fst =
          [0, 1, 2, 3, 4, 5, 6, 7, 4, 5, 6, 7, 8, 9, 10, 11]) ∧
      (pattern2x2.DecreaseH = Canvas.UpdateSize { pattern2x2 with h_new := 1 } ∧
        (Canvas.Clear { pattern2x2 with
          h_new := 1, pixels := vectorResize pattern2x2.pixels (2 * 1 * 4) }).pixels.length = 8 ∧
        ((Canvas.Clear { pattern2x2 with
          h_new := 1, pixels := vectorResize pattern2x2.pixels (2 * 1 * 4) }).pasteStores
          (Canvas.copyArray { pattern2x2 with h_new := 1 })).map Prod.fst =
          [0, 1, 2, 3, 4, 5, 6, 7, 8, 9, 10, 11, 12, 13, 14, 15]) := by
  decide

/-- C3 (code evaluated at the failing input): the 3×3 pattern canvas grows to
4×3 with the nine pixels kept and the new column zero, and to 3×4 likewise, but
the shrink that follows has no result, because its paste loop stores outside
the shrunk vector. -/
theorem Canvas.grow_then_shrink_no_result :
    (pattern3x3.IncreaseW =
        some { w := 4, h := 3, w_new := 4, h_new := 3, syncs := 1,
               pixels := [1, 2, 3, 4, 5, 6, 7, 8, 9, 10, 11, 12, 0, 0, 0, 0,
                          13, 14, 15, 16, 17, 18, 19, 20, 21, 22, 23, 24, 0, 0, 0, 0,
                          25, 26, 27, 28, 29, 30, 31, 32, 33, 34, 35, 36, 0, 0, 0, 0] } ∧
        pattern3x3.IncreaseW.bind Canvas.DecreaseW = none) ∧
      ((pattern3x3.IncreaseH).map (fun c => (c.w, c.h)) = some (3, 4) ∧
        pattern3x3.IncreaseH.bind Canvas.DecreaseH = none) := by
  decide

/-- C4 (code evaluated at the failing input): from the constructed canvases
`Canvas(2,2)` and `Canvas(5,5)` the one-step sequence `DecreaseW` has no result,
and neither has `IncreaseH` followed by `DecreaseH`; a sequence without a shrink
does have one, of the right buffer length. -/
theorem Canvas.run_shrink_no_result :
    (Canvas.create 2 2).run [.DecreaseW] = none ∧
      (Canvas.create 5 5).run [.DecreaseW] = none ∧
      (Canvas.create 2 2).run [.IncreaseH, .DecreaseH] = none ∧
      ((Canvas.create 2 2).run [.SetPixel 1 1 ⟨1, 2, 3, 4⟩, .IncreaseW, .Clear]).map
        (fun c => (c.w, c.h, c.pixels.length)) = some (3, 2, 24) := by
  decide

/-- C9: for an HSV value with `h ≤ 360`, `s ≤ 100`, `v ≤ 100`, each of the six
step operations keeps all three ranges, leaves the two other channels alone,
moves its own channel by exactly 1 when it is strictly inside the bound in the
direction of the step, and leaves it unchanged at the bound; the narrowing to
`uint16_t` / `uint8_t` never wraps. -/
theorem HSV.steps_saturate (c : HSV) (hh : c.h ≤ 360) (hs : c.s ≤ 100) (hv : c.v ≤ 100) :
    ((c.DecreaseH.h ≤ 360 ∧ c.DecreaseH.s = c.s ∧ c.DecreaseH.v = c.v) ∧
        (0 < c.h → c.DecreaseH.h + 1 = c.h) ∧ (c.h = 0 → c.DecreaseH.h = 0)) ∧
      ((c.IncreaseH.h ≤ 360 ∧ c.IncreaseH.s = c.s ∧ c.IncreaseH.v = c.v) ∧
        (c.h < 360 → c.IncreaseH.h = c.h + 1) ∧ (c.h = 360 → c.IncreaseH.h = 360)) ∧
      ((c.DecreaseS.s ≤ 100 ∧ c.DecreaseS.h = c.h ∧ c.DecreaseS.v = c.v) ∧
        (0 < c.s → c.DecreaseS.s + 1 = c.s) ∧ (c.s = 0 → c.DecreaseS.s = 0)) ∧
      ((c.IncreaseS.s ≤ 100 ∧ c.IncreaseS.h = c.h ∧ c.IncreaseS.v = c.v) ∧
        (c.s < 100 → c.IncreaseS.s = c.s + 1) ∧ (c.s = 100 → c.IncreaseS.s = 100)) ∧
      ((c.DecreaseV.v ≤ 100 ∧ c.DecreaseV.h = c.h ∧ c.DecreaseV.s = c.s) ∧
        (0 < c.v → c.DecreaseV.v + 1 = c.v) ∧ (c.v = 0 → c.DecreaseV.v = 0)) ∧
      ((c.IncreaseV.v ≤ 100 ∧ c.IncreaseV.h = c.h ∧ c.IncreaseV.s = c.s) ∧
        (c.v < 100 → c.IncreaseV.v = c.v + 1) ∧ (c.v = 100 → c.IncreaseV.v = 100)) := by
  unfold HSV.DecreaseH HSV.IncreaseH HSV.DecreaseS HSV.IncreaseS HSV.DecreaseV HSV.IncreaseV
  refine ⟨?_, ?_, ?_, ?_, ?_, ?_⟩ <;> split <;> (try dsimp only) <;> omega

theorem HSV.steps_saturate_witness :
    ((0 : Nat) ≤ 360 ∧ (100 : Nat) ≤ 100 ∧ (50 : Nat) ≤ 100) ∧
      (HSV.DecreaseH ⟨0, 100, 50⟩ = ⟨0, 100, 50⟩ ∧ HSV.IncreaseS ⟨0, 100, 50⟩ = ⟨0, 100, 50⟩ ∧
        HSV.IncreaseH ⟨0, 100, 50⟩ = ⟨1, 100, 50⟩ ∧ HSV.DecreaseV ⟨0, 100, 50⟩ = ⟨0, 100, 49⟩) ∧
      (HSV.DecreaseH ⟨0, 100, 50⟩).h = 0 ∧ (HSV.IncreaseS ⟨0, 100, 50⟩).s = 100 :=
  have h := HSV.steps_saturate ⟨0, 100, 50⟩ (by decide) (by decide) (by decide)
  ⟨by decide, by decide, h.1.2.2 rfl, h.2.2.2.1.2.2 rfl⟩


